import Mathlib

/-!
Verification of the Determined estimator on-cluster coordination layer.

This file gives a shallow embedding, in Lean 4, of the workload control loop
of `harness/determined/estimator/_estimator_trial.py` (class
`DeterminedControlHook` and class `EstimatorTrialController`), of the
`core.Context.__exit__` handler of `harness/determined/core/_context.py`, and
of the settings-resolution fragment of `pytorch.Trainer.fit` of
`harness/determined/pytorch/_trainer.py`, together with theorems about the
properties the specification claims for them.

Modelling conventions:
* Python dicts of metrics become association lists `List (String × MetricValue)`
  with unique keys; numeric (float) metric values become rationals `ℚ`.
* Exceptions become explicit outcome values: `det.errors.WorkerFinishedGracefully`
  and `AssertionError` become constructors of `Outcome`; a Python `TypeError` or
  `KeyError` raised while aggregating metrics becomes `Option.none` (a crash).
* The cooperative reentry between `control_loop()` and TensorFlow's training
  loop (which calls `after_run` once per batch) is flattened into a single
  tail-recursive simulator over the list of remaining workloads: the Python
  `workloads` generator is shared between the nested `control_loop()` calls,
  so consuming it recursively from the front is the same computation.
* External inputs (per-batch summary metrics, `estimator.evaluate` results,
  gathered peer metrics, storage ids from `store_path`, whether user code
  raises `det.InvalidHP`) are supplied by an `Env` of oracles indexed by the
  global batch counter or the workload index.
-/

namespace DeterminedEstimator

/-- A metric value: Python floats become rationals, anything non-numeric
(strings, arrays, ...) is collapsed into the `str` constructor, whose payload
only serves to distinguish values. -/
inductive MetricValue where
  | num (q : ℚ)
  | str (s : String)
deriving DecidableEq, Repr

/-- A Python dict of metrics, as an association list with unique keys. -/
abbrev Metrics := List (String × MetricValue)

/-- Embedding of `workload.Workload.Kind`: the tagged union of workload kinds consumed by
`control_loop`.  `other` stands for any kind outside the three known ones,
exercising the `else: raise AssertionError` branch (line 338-339). -/
inductive Workload where
  | runStep (numBatches : Nat)
  | computeValidationMetrics
  | checkpointModel
  | other
deriving DecidableEq, Repr

/-- Whether a workload kind is one of the three the control loop knows. -/
def Workload.known : Workload → Bool
  | .other => false
  | _ => true

/-- The inner value returned by `EstimatorTrialController.compute_validation_metrics`:
either the empty dict (non-chief ranks) or a dict with the single key
"validation_metrics" (the chief).  The `Option Metrics` payload mirrors the
fact that Python would store whatever `average_metrics` returned under that
key, including `None`. -/
inductive ValResp where
  | empty
  | withMetrics (m : Option Metrics)
deriving DecidableEq, Repr

/-- A value passed to a workload's `response_func`. `trainStep` carries the
inputs of `det.util.make_metrics(batches_processed_in_step, step_metrics)`
(that helper lives outside this corpus) next to the stop-requested flag. -/
inductive Response where
  | trainStep (batchesProcessed : Nat) (stepMetrics : List Metrics) (stopRequested : Bool)
  | validation (inner : ValResp) (stopRequested : Bool)
  | checkpointUuid (uuid : String)
  | emptyDict
  | invalidHP
deriving DecidableEq, Repr

/-- Where a response was produced: inside `after_run` (training-step responses)
or inside `control_loop` itself (validation/checkpoint responses). -/
inductive Source where
  | fromAfterRun
  | fromControlLoop
deriving DecidableEq, Repr

/-- Rank-0-relevant side effects performed while handling workloads. -/
inductive Effect where
  | writeTrainMetrics (stepsCompleted : Nat)
  | writeValidationMetrics (stepsCompleted : Nat) (m : Option Metrics)
  | storePath (uuid : String)
  | saveModel (globalStep : Nat)
deriving DecidableEq, Repr

/-- Whether an effect is one of the reporting side effects the spec reserves
for the chief (`saveModel` is the local TensorFlow save every rank performs). -/
def Effect.isReporting : Effect → Bool
  | .writeTrainMetrics _ => true
  | .writeValidationMetrics _ _ => true
  | .storePath _ => true
  | .saveModel _ => false

/-- How the simulated training process terminates. -/
inductive Outcome where
  | graceful
  | assertionError
  | crashed
deriving DecidableEq, Repr

/-- The mutable fields of `DeterminedControlHook` (lines 60-80). -/
structure HookState where
  batchesProcessedInStep : Nat
  stepMetrics : List Metrics
  numBatches : Option Nat
  trainResponsePending : Bool
  currentGlobalStep : Option Nat
  globalStepOfLastCheckpoint : Option Nat
  stepsCompleted : Nat
deriving DecidableEq, Repr

/-- Hook state plus the count of training batches the process has run, which
is what the TensorFlow `global_step` tensor reports back in `after_run`. -/
structure SimState where
  hook : HookState
  globalBatch : Nat
deriving DecidableEq, Repr

/-- Embedding of `DeterminedControlHook.__init__`: counters at zero, nothing pending, no
global step observed yet, `steps_completed` taken from the environment. -/
def initHookState (stepsCompleted0 : Nat) : HookState :=
  { batchesProcessedInStep := 0
    stepMetrics := []
    numBatches := none
    trainResponsePending := false
    currentGlobalStep := none
    globalStepOfLastCheckpoint := none
    stepsCompleted := stepsCompleted0 }

/-- Initial simulator state (fresh process, no batches run). -/
def initSimState (stepsCompleted0 : Nat) : SimState :=
  { hook := initHookState stepsCompleted0, globalBatch := 0 }

/-- The external inputs of one rank's run. -/
structure Env where
  /-- Value of `self.estimator_trial_controller.is_chief` (rank 0). -/
  isChief : Bool
  /-- Value of `self.context.distributed.size`; `hvd.size()` coincides with it. -/
  distributedSize : Nat
  /-- Value of `self.context.get_stop_requested()`. -/
  stopRequested : Bool
  /-- Summary metrics collected by `_collect_batch_metrics` for the b-th batch. -/
  batchMetrics : Nat → Metrics
  /-- Result of `estimator.evaluate` for the workload at this index. -/
  evalMetrics : Nat → Metrics
  /-- What `distributed.gather` hands the chief for the workload at this index. -/
  gatherAll : Nat → List Metrics
  /-- The `storage_id` produced by `core.checkpoint.store_path` at this index. -/
  checkpointUuid : Nat → String
  /-- Whether user code raises `det.InvalidHP` while handling this workload. -/
  invalidHP : Nat → Bool

/-- The loss-name fix of `after_run` (lines 154-156): if a per-batch dict has
"loss_1" but no "loss", the value is copied over to "loss". -/
def fixLossMetrics (m : Metrics) : Metrics :=
  match m.lookup "loss", m.lookup "loss_1" with
  | none, some v => m ++ [("loss", v)]
  | _, _ => m

/-- Embedding of `DeterminedControlHook._save_model` (lines 240-263): save only if training
has happened since process start and the global step moved since the last
save.  Returns the new hook state and the `saveModel` effect, if any. -/
def _save_model (hook : HookState) : HookState × Option Effect :=
  match hook.currentGlobalStep with
  | none => (hook, none)
  | some gs =>
    if hook.globalStepOfLastCheckpoint = some gs then
      (hook, none)
    else
      ({ hook with globalStepOfLastCheckpoint := some gs }, some (.saveModel gs))

/-- Embedding of `sum(m[key] for m in all_metrics)` (line 812): `none` models the KeyError
or TypeError Python raises when a gathered dict lacks the key or holds a
non-numeric value there. -/
def sumMetricKey (all : List Metrics) (k : String) : Option ℚ :=
  match all with
  | [] => some 0
  | m :: rest =>
    match m.lookup k, sumMetricKey rest k with
    | some (.num q), some s => some (q + s)
    | _, _ => none

/-- The `for key in metrics` loop of `average_metrics` (lines 810-814) run on
the chief: numeric entries are replaced by the gathered sum divided by
`hvd.size()`, other entries are left as rank 0 produced them and their keys
are recorded as warned about (`logging.warning`, line 814). -/
def averageMetricsLoop (all : List Metrics) (sz : ℚ) : Metrics → Option (Metrics × List String)
  | [] => some ([], [])
  | (k, v) :: rest =>
    match v with
    | .num _ =>
      match sumMetricKey all k, averageMetricsLoop all sz rest with
      | some s, some (ms, ws) => some ((k, .num (s / sz)) :: ms, ws)
      | _, _ => none
    | _ =>
      match averageMetricsLoop all sz rest with
      | some (ms, ws) => some ((k, v) :: ms, k :: ws)
      | none => none

/-- Embedding of `EstimatorTrialController.average_metrics` (lines 801-815), seen from one
rank.  `all` is what `distributed.gather` returned on the chief; non-chief
ranks get `None` back.  The outer `Option` is a crash in the summing loop, the
inner one is the `None` returned to non-chief ranks; the `List String` records
the keys whose averaging was skipped with a warning.  Callers guarantee the
`assert size > 1` precondition. -/
def average_metrics (isChief : Bool) (all : List Metrics) (sz : ℚ) (metrics : Metrics) :
    Option (Option Metrics × List String) :=
  if isChief then
    match averageMetricsLoop all sz metrics with
    | some (ms, ws) => some (some ms, ws)
    | none => none
  else
    some (none, [])

/-- Embedding of `EstimatorTrialController.compute_validation_metrics` (lines 778-799).
`evalMetrics` stands for the result of `estimator.evaluate`; when
`distributed.size > 1` the metrics are replaced by `average_metrics`; finally
non-chief ranks return the empty dict and the chief wraps the metrics under
the "validation_metrics" key. -/
def compute_validation_metrics (isChief : Bool) (size : Nat) (all : List Metrics) (sz : ℚ)
    (evalMetrics : Metrics) : Option (ValResp × List String) :=
  if 1 < size then
    match average_metrics isChief all sz evalMetrics with
    | none => none
    | some (m, ws) =>
      if isChief then some (.withMetrics m, ws) else some (.empty, ws)
  else
    if isChief then some (.withMetrics (some evalMetrics), []) else some (.empty, [])

/-- One invocation of `DeterminedControlHook.after_run` (lines 129-186) for
the next training batch: the global step advances, `steps_completed` is
incremented, the batch metrics are collected and the batch counter bumped; if
fewer than `num_batches` batches have run the hook returns early (no
response); on the final batch the loss-fixed metrics are packaged into a
response (the chief additionally writes train metrics) and the per-step
state is reset. -/
def afterRunStep (env : Env) (s : SimState) : SimState × List Effect × Option Response :=
  let gs := s.globalBatch + 1
  let n := s.hook.numBatches.getD 0
  let stepMetrics := s.hook.stepMetrics ++ [env.batchMetrics s.globalBatch]
  let processed := s.hook.batchesProcessedInStep + 1
  let hook1 : HookState :=
    { s.hook with
        currentGlobalStep := some gs
        stepsCompleted := s.hook.stepsCompleted + 1
        stepMetrics := stepMetrics
        batchesProcessedInStep := processed }
  if processed < n then
    ({ hook := hook1, globalBatch := gs }, [], none)
  else
    let fixed := stepMetrics.map fixLossMetrics
    let resp : Response :=
      if env.isChief then .trainStep processed fixed env.stopRequested else .emptyDict
    let effs : List Effect :=
      if env.isChief then [.writeTrainMetrics hook1.stepsCompleted] else []
    let hook2 : HookState :=
      { hook1 with trainResponsePending := false, batchesProcessedInStep := 0, stepMetrics := [] }
    ({ hook := hook2, globalBatch := gs }, effs, some resp)

/-- The TensorFlow training loop between two `control_loop` entries: run
batches (each triggering `after_run`) until the step response fires.  `fuel`
only bounds the recursion; `control_loop` passes `num_batches + 1`, which is
always enough (proved below). -/
def trainLoop (env : Env) (s : SimState) : Nat → Option (SimState × List Effect × Response)
  | 0 => none
  | fuel + 1 =>
    match afterRunStep env s with
    | (s', effs, some r) => some (s', effs, r)
    | (s', _, none) => trainLoop env s' fuel

/-- The result of handling one workload. -/
inductive StepResult where
  | ok (s' : SimState) (effs : List Effect) (src : Source) (r : Response)
  | fail (effs : List Effect) (out : Outcome)
deriving DecidableEq, Repr

/-- One iteration of the `for wkld, response_func in workloads` loop of
`control_loop` (lines 296-346), including, for RUN_STEP, the training batches
run before `after_run` delivers the step response.

* RUN_STEP (300-306): store `num_batches`, mark the response pending and hand
  control back to the training loop.
* COMPUTE_VALIDATION_METRICS (308-320): `_compute_validation_metrics` first
  calls `_save_model` (line 289), then runs the evaluation; `det.InvalidHP`
  from user evaluation code is caught (341-343) and becomes the structured
  InvalidHP response; on the chief the result always carries the
  "validation_metrics" key, which is persisted via `_write_validation_metrics`.
* CHECKPOINT_MODEL (322-336): `_save_model`, then only the chief enters
  `store_path`/`_checkpoint_model` (where user callbacks may raise
  `det.InvalidHP`, again caught at 341-343) and answers with the storage id;
  other ranks answer with the empty dict.
* any other kind (338-339): `raise AssertionError`, which the
  `except det.InvalidHP` clause does not catch. -/
def handleWorkload (env : Env) (idx : Nat) (s : SimState) : Workload → StepResult
  | .runStep n =>
    let hook := { s.hook with numBatches := some n, trainResponsePending := true }
    match trainLoop env { hook := hook, globalBatch := s.globalBatch } (n + 1) with
    | some (s', effs, r) => .ok s' effs .fromAfterRun r
    | none => .fail [] .crashed
  | .computeValidationMetrics =>
    let saved := _save_model s.hook
    let s1 : SimState := { hook := saved.1, globalBatch := s.globalBatch }
    if env.invalidHP idx then
      .ok s1 saved.2.toList .fromControlLoop .invalidHP
    else
      match compute_validation_metrics env.isChief env.distributedSize (env.gatherAll idx)
          (env.distributedSize : ℚ) (env.evalMetrics idx) with
      | none => .fail saved.2.toList .crashed
      | some (inner, _) =>
        if env.isChief then
          match inner with
          | .withMetrics m =>
            .ok s1 (saved.2.toList ++ [.writeValidationMetrics s1.hook.stepsCompleted m])
              .fromControlLoop (.validation inner env.stopRequested)
          | .empty => .fail saved.2.toList .crashed
        else
          .ok s1 saved.2.toList .fromControlLoop (.validation inner env.stopRequested)
  | .checkpointModel =>
    let saved := _save_model s.hook
    let s1 : SimState := { hook := saved.1, globalBatch := s.globalBatch }
    if env.isChief then
      if env.invalidHP idx then
        .ok s1 saved.2.toList .fromControlLoop .invalidHP
      else
        .ok s1 (saved.2.toList ++ [.storePath (env.checkpointUuid idx)])
          .fromControlLoop (.checkpointUuid (env.checkpointUuid idx))
    else
      .ok s1 saved.2.toList .fromControlLoop .emptyDict
  | .other => .fail [] .assertionError

/-- The trace of one rank's run: each emitted response tagged with its
workload index and producing site, the side effects in order, and how the
process terminated. -/
structure Trace where
  emits : List (Nat × Source × Response)
  effects : List Effect
  outcome : Outcome
deriving DecidableEq, Repr

/-- Embedding of `DeterminedControlHook.control_loop` (lines 292-349) driving a finite
workload sequence to completion: each workload is handled and acknowledged
through its `response_func`; when the sequence is exhausted the loop raises
`det.errors.WorkerFinishedGracefully` (line 349). -/
def control_loop (env : Env) (idx : Nat) (s : SimState) : List Workload → Trace
  | [] => { emits := [], effects := [], outcome := .graceful }
  | w :: ws =>
    match handleWorkload env idx s w with
    | .ok s' effs src r =>
      let t := control_loop env (idx + 1) s' ws
      { emits := (idx, src, r) :: t.emits, effects := effs ++ t.effects, outcome := t.outcome }
    | .fail effs out => { emits := [], effects := effs, outcome := out }

/-- The environment-side soundness condition for a run starting at workload
index `idx`: each validation workload whose evaluation is not short-circuited
by `det.InvalidHP` aggregates without a Python crash (keys present, values
numeric where summed). -/
def envOkB (env : Env) : Nat → List Workload → Bool
  | _, [] => true
  | idx, w :: ws =>
    (match w with
     | .computeValidationMetrics =>
       env.invalidHP idx
         || (compute_validation_metrics env.isChief env.distributedSize (env.gatherAll idx)
              (env.distributedSize : ℚ) (env.evalMetrics idx)).isSome
     | _ => true)
    && envOkB env (idx + 1) ws

/-- Which site acknowledges each workload kind. -/
def sourceOf : Workload → Source
  | .runStep _ => .fromAfterRun
  | _ => .fromControlLoop

/-- How `tf.estimator.train_and_evaluate` terminates, seen from
`EstimatorTrialController.run`. -/
inductive TrainAndEvaluateResult where
  | raisedGraceful
  | raisedOther
  | returnedNormally
deriving DecidableEq, Repr

/-- How `EstimatorTrialController.run` itself terminates. -/
inductive RunResult where
  | returnedNormally
  | raisedAssertionError
  | propagatedError
deriving DecidableEq, Repr

/-- Embedding of `EstimatorTrialController.run` (lines 721-737): catch exactly
`det.errors.WorkerFinishedGracefully` and return; a training loop that exits
without raising gets `raise AssertionError` from the `else` clause; any other
exception propagates. -/
def run (t : TrainAndEvaluateResult) : RunResult :=
  match t with
  | .raisedGraceful => .returnedNormally
  | .returnedNormally => .raisedAssertionError
  | .raisedOther => .propagatedError

/-- What the control loop makes `train_and_evaluate` raise: exhaustion raises
`WorkerFinishedGracefully`; an assertion failure or an uncaught exception
propagates as some other error. -/
def trainAndEvaluateResult (t : Trace) : TrainAndEvaluateResult :=
  match t.outcome with
  | .graceful => .raisedGraceful
  | .assertionError => .raisedOther
  | .crashed => .raisedOther

/-! ### `core.Context.__exit__` (`core/_context.py`, lines 57-66) -/

/-- Exceptions relevant to `Context.__exit__`. -/
inductive PyException where
  | invalidHP
  | other (name : String)
deriving DecidableEq, Repr

/-- Observable behavior of `Context.__exit__`. -/
structure ContextExitEffects where
  preemptClosed : Bool
  distributedClosed : Bool
  reportedEarlyExitInvalidHP : Bool
  exitedZero : Bool
deriving DecidableEq, Repr

/-- Embedding of `core.Context.__exit__`: always close preemption and the distributed
context; if the in-flight exception is `det.InvalidHP`, report an
INVALID_HP early exit and `exit(0)`. -/
def Context_exit (value : Option PyException) : ContextExitEffects :=
  { preemptClosed := true
    distributedClosed := true
    reportedEarlyExitInvalidHP := value = some .invalidHP
    exitedZero := value = some .invalidHP }

/-! ### Checkpoint round-trip of the WorkloadSequencer state -/

/-- Modelled from the spec: `layers.WorkloadSequencer` is not part of this
corpus; its state is "a monotonically advancing position (steps completed,
current workload index)", `get_state` reads it and `load_state` installs a
previously saved one. -/
structure WlsqState where
  stepsCompleted : Nat
  workloadIdx : Nat
deriving DecidableEq, Repr

/-- Contents of one file inside a checkpoint directory.  Distinct pickled
states have distinct file contents (pickling is injective), which this
constructor-based representation gives by construction. -/
inductive FileContent where
  | pklWlsqState (st : WlsqState)
  | loadDataJson (trialType : String)
  | modelFiles
deriving DecidableEq, Repr

/-- A checkpoint staging directory: file name to contents. -/
abbrev CheckpointDir := List (String × FileContent)

/-- Embedding of `DeterminedControlHook._checkpoint_model` (lines 221-238): the latest
TensorFlow checkpoint, exported models and user code are copied in (collapsed
into `modelFiles` here); when a live WorkloadSequencer exists,
`pickle.dump(wlsq.get_state(), ...)` is written to "workload_sequencer.pkl";
finally "load_data.json" records the trial flavor. -/
def _checkpoint_model (wlsq : Option WlsqState) : CheckpointDir :=
  [("model", FileContent.modelFiles)]
    ++ (match wlsq with
        | some st => [("workload_sequencer.pkl", FileContent.pklWlsqState st)]
        | none => [])
    ++ [("load_data.json", FileContent.loadDataJson "EstimatorTrial")]

/-- The WorkloadSequencer-restore fragment of
`EstimatorTrialController._init_paths` (lines 772-776): if a live sequencer
exists and the restored directory has "workload_sequencer.pkl", install the
unpickled state through `wlsq.load_state`; otherwise the sequencer keeps its
current position.  Returns the sequencer's position after restore. -/
def _init_paths_load_wlsq (wlsq : Option WlsqState) (loadPath : CheckpointDir) :
    Option WlsqState :=
  match wlsq with
  | none => none
  | some cur =>
    match loadPath.lookup "workload_sequencer.pkl" with
    | some (.pklWlsqState st) => some st
    | _ => some cur

/-! ### `pytorch.Trainer.fit` settings resolution (`pytorch/_trainer.py`) -/

/-- Python `a or b` for an `Optional[bool]` left operand: the left value is
returned when truthy (`True`), otherwise the right one. -/
def pyOrBool (a : Option Bool) (b : Bool) : Bool :=
  match a with
  | some true => true
  | _ => b

/-- Python `a or b` for an `Optional[int]` left operand (`0` is falsy). -/
def pyOrNat (a : Option Nat) (b : Nat) : Nat :=
  match a with
  | some n => if n ≠ 0 then n else b
  | none => b

/-- Python `a or b` for an `Optional[str]` left operand (`""` is falsy). -/
def pyOrStr (a : Option String) (b : String) : String :=
  match a with
  | some s => if s ≠ "" then s else b
  | none => b

/-- The keyword arguments of `Trainer.fit` relevant to settings resolution. -/
structure FitArgs where
  averageTrainingMetrics : Option Bool
  averageAggregatedGradients : Option Bool
  smallerIsBetter : Option Bool
  checkpointPolicy : Option String
  aggregationFrequency : Option Nat
deriving DecidableEq, Repr

/-- The effective settings `Trainer.fit` hands `_PyTorchTrialController`. -/
structure FitSettings where
  aggregationFrequency : Nat
  averageAggregatedGradients : Bool
  averageTrainingMetrics : Bool
  checkpointPolicy : String
  smallerIsBetter : Bool
deriving DecidableEq, Repr

/-- The settings-resolution fragment of `pytorch.Trainer.fit` (lines 56-93):
`aggregation_frequency or 1`, `average_aggregated_gradients or True`,
`average_training_metrics or True`, `checkpoint_policy or "best"`, and
`smaller_is_better or True` in local mode (on cluster the fallback is the
experiment config's `searcher.smaller_is_better`). -/
def Trainer_fit_settings (localTraining : Bool) (configSmallerIsBetter : Bool)
    (args : FitArgs) : FitSettings :=
  { aggregationFrequency := pyOrNat args.aggregationFrequency 1
    averageAggregatedGradients := pyOrBool args.averageAggregatedGradients true
    averageTrainingMetrics := pyOrBool args.averageTrainingMetrics true
    checkpointPolicy := pyOrStr args.checkpointPolicy "best"
    smallerIsBetter :=
      if localTraining then pyOrBool args.smallerIsBetter true
      else pyOrBool args.smallerIsBetter configSmallerIsBetter }

/-! ## Concrete instances used by witnesses and counterexamples -/

/-- A single-slot non-chief environment (as seen by a rank that is not rank
0 of its group). -/
def envNonChief : Env :=
  { isChief := false
    distributedSize := 1
    stopRequested := false
    batchMetrics := fun b => [("loss", MetricValue.num (b : ℚ))]
    evalMetrics := fun _ => [("acc", MetricValue.num 1)]
    gatherAll := fun _ => []
    checkpointUuid := fun _ => "uuid-0"
    invalidHP := fun _ => false }

/-- A single-slot chief environment. -/
def envChief : Env :=
  { envNonChief with isChief := true, checkpointUuid := fun _ => "uuid-1" }

/-- A chief environment whose user code raises `det.InvalidHP` everywhere. -/
def envInvalidHP : Env :=
  { envChief with invalidHP := fun _ => true }

/-- A small workload sequence: one training step, a checkpoint, a validation. -/
def wsW : List Workload :=
  [.runStep 1, .checkpointModel, .computeValidationMetrics]

/-- A state about to run a RUN_STEP of two batches. -/
def sW : SimState :=
  { hook := { initHookState 0 with numBatches := some 2 }, globalBatch := 0 }

/-- Gathered per-rank metrics used to exercise the averaging loop. -/
def allW : List Metrics :=
  [[("a", MetricValue.num 1)], [("a", MetricValue.num 3)]]

/-- Rank 0's own metrics used to exercise the averaging loop. -/
def metricsW : Metrics :=
  [("a", MetricValue.num 1), ("b", MetricValue.str "x")]

/-! ## Helper lemmas -/

theorem pyOrBool_true_right (a : Option Bool) : pyOrBool a true = true := by
  cases a with
  | none => rfl
  | some b => cases b <;> rfl

/-- Running `after_run` before the final batch of a step: metrics are collected, the
counters advance, and the hook returns early without touching the response. -/
theorem afterRunStep_continue (env : Env) (s : SimState) (n : Nat)
    (hn : s.hook.numBatches = some n)
    (hlt : s.hook.batchesProcessedInStep + 1 < n) :
    afterRunStep env s =
      ({ hook :=
          { s.hook with
              currentGlobalStep := some (s.globalBatch + 1)
              stepsCompleted := s.hook.stepsCompleted + 1
              stepMetrics := s.hook.stepMetrics ++ [env.batchMetrics s.globalBatch]
              batchesProcessedInStep := s.hook.batchesProcessedInStep + 1 },
         globalBatch := s.globalBatch + 1 }, [], none) := by
  simp [afterRunStep, hn, hlt]

/-- Running `after_run` on the final batch of a step: the response fires and the
per-step state is reset. -/
theorem afterRunStep_fire (env : Env) (s : SimState) (n : Nat)
    (hn : s.hook.numBatches = some n)
    (hge : n ≤ s.hook.batchesProcessedInStep + 1) :
    afterRunStep env s =
      ({ hook :=
          { s.hook with
              currentGlobalStep := some (s.globalBatch + 1)
              stepsCompleted := s.hook.stepsCompleted + 1
              stepMetrics := []
              batchesProcessedInStep := 0
              trainResponsePending := false },
         globalBatch := s.globalBatch + 1 },
       (if env.isChief then [Effect.writeTrainMetrics (s.hook.stepsCompleted + 1)] else []),
       some (if env.isChief then
           Response.trainStep (s.hook.batchesProcessedInStep + 1)
             ((s.hook.stepMetrics ++ [env.batchMetrics s.globalBatch]).map fixLossMetrics)
             env.stopRequested
         else Response.emptyDict)) := by
  have hnlt : ¬ (s.hook.batchesProcessedInStep + 1 < n) := by omega
  simp [afterRunStep, hn, hnlt]

theorem trainLoop_succ_of_none (env : Env) (s s' : SimState) (f : Nat) (effs : List Effect)
    (h : afterRunStep env s = (s', effs, none)) :
    trainLoop env s (f + 1) = trainLoop env s' f := by
  simp [trainLoop, h]

theorem trainLoop_succ_of_some (env : Env) (s s' : SimState) (f : Nat) (effs : List Effect)
    (r : Response) (h : afterRunStep env s = (s', effs, some r)) :
    trainLoop env s (f + 1) = some (s', effs, r) := by
  simp [trainLoop, h]

/-- Shifting the base of a window of per-batch metrics by one. -/
theorem range_map_shift (f : Nat → Metrics) (gb d : Nat) :
    f gb :: (List.range d).map (fun j => f (gb + 1 + j))
      = (List.range (d + 1)).map (fun j => f (gb + j)) := by
  rw [List.range_succ_eq_map, List.map_cons, List.map_map]
  have hfun : ((fun j => f (gb + j)) ∘ Nat.succ) = fun j => f (gb + 1 + j) := by
    funext j
    simp only [Function.comp]
    congr 1
    omega
  rw [hfun]
  simp

/-- The training loop between two control-loop entries, in closed form: with
`p < n` batches already processed and enough fuel, it runs exactly `n - p`
further batches, then delivers the step response built from the collected
per-batch metrics and resets the per-step state. -/
theorem trainLoop_run (env : Env) :
    ∀ (fuel : Nat) (s : SimState) (n : Nat),
      s.hook.numBatches = some n →
      s.hook.batchesProcessedInStep < n →
      n ≤ s.hook.batchesProcessedInStep + fuel →
      trainLoop env s fuel =
        some
          ({ hook :=
              { s.hook with
                  trainResponsePending := false
                  batchesProcessedInStep := 0
                  stepMetrics := []
                  currentGlobalStep :=
                    some (s.globalBatch + (n - s.hook.batchesProcessedInStep))
                  stepsCompleted :=
                    s.hook.stepsCompleted + (n - s.hook.batchesProcessedInStep) },
             globalBatch := s.globalBatch + (n - s.hook.batchesProcessedInStep) },
           (if env.isChief
            then [Effect.writeTrainMetrics
                   (s.hook.stepsCompleted + (n - s.hook.batchesProcessedInStep))]
            else []),
           if env.isChief then
             Response.trainStep n
               ((s.hook.stepMetrics
                  ++ (List.range (n - s.hook.batchesProcessedInStep)).map
                      (fun j => env.batchMetrics (s.globalBatch + j))).map fixLossMetrics)
               env.stopRequested
           else Response.emptyDict) := by
  intro fuel
  induction fuel with
  | zero =>
    intro s n _ hlt hle
    omega
  | succ f ih =>
    intro s n hn hlt hle
    by_cases hcont : s.hook.batchesProcessedInStep + 1 < n
    · rw [trainLoop_succ_of_none env s _ f [] (afterRunStep_continue env s n hn hcont)]
      rw [ih _ n (by exact hn) (by dsimp only; omega) (by dsimp only; omega)]
      dsimp only
      have e1 : s.globalBatch + 1 + (n - (s.hook.batchesProcessedInStep + 1))
          = s.globalBatch + (n - s.hook.batchesProcessedInStep) := by omega
      have e2 : s.hook.stepsCompleted + 1 + (n - (s.hook.batchesProcessedInStep + 1))
          = s.hook.stepsCompleted + (n - s.hook.batchesProcessedInStep) := by omega
      have e3 : (s.hook.stepMetrics ++ [env.batchMetrics s.globalBatch])
            ++ (List.range (n - (s.hook.batchesProcessedInStep + 1))).map
                (fun j => env.batchMetrics (s.globalBatch + 1 + j))
          = s.hook.stepMetrics
            ++ (List.range (n - s.hook.batchesProcessedInStep)).map
                (fun j => env.batchMetrics (s.globalBatch + j)) := by
        rw [List.append_assoc, List.singleton_append, range_map_shift]
        have hd : n - (s.hook.batchesProcessedInStep + 1) + 1
            = n - s.hook.batchesProcessedInStep := by omega
        rw [hd]
      rw [e1, e2, e3]
    · have hfin : n = s.hook.batchesProcessedInStep + 1 := by omega
      rw [trainLoop_succ_of_some env s _ f _ _ (afterRunStep_fire env s n hn (by omega))]
      have hd : n - s.hook.batchesProcessedInStep = 1 := by omega
      rw [hd]
      have e1 : s.hook.batchesProcessedInStep + 1 = n := by omega
      simp only [e1]
      simp [List.range_succ]

/-- With fuel `num_batches + 1` the training loop always delivers a step
response, whatever the batch counter held on entry. -/
theorem trainLoop_total (env : Env) (s : SimState) (n : Nat)
    (hn : s.hook.numBatches = some n) :
    ∃ s' effs r, trainLoop env s (n + 1) = some (s', effs, r) := by
  by_cases hp : s.hook.batchesProcessedInStep < n
  · exact ⟨_, _, _, trainLoop_run env (n + 1) s n hn hp (by omega)⟩
  · exact ⟨_, _, _, trainLoop_succ_of_some env s _ n _ _
      (afterRunStep_fire env s n hn (by omega))⟩

/-- On a non-chief rank, `after_run` never reports metrics and a fired
response is the empty dict. -/
theorem afterRunStep_nonchief (env : Env) (s : SimState) (hc : env.isChief = false) :
    (afterRunStep env s).2.1 = []
    ∧ ((afterRunStep env s).2.2 = none
        ∨ (afterRunStep env s).2.2 = some Response.emptyDict) := by
  by_cases h : s.hook.batchesProcessedInStep + 1 < s.hook.numBatches.getD 0 <;>
    simp [afterRunStep, h, hc]

/-- On a non-chief rank the training loop performs no effects and answers the
empty dict. -/
theorem trainLoop_nonchief (env : Env) (hc : env.isChief = false) :
    ∀ (fuel : Nat) (s s' : SimState) (effs : List Effect) (r : Response),
      trainLoop env s fuel = some (s', effs, r) → effs = [] ∧ r = Response.emptyDict := by
  intro fuel
  induction fuel with
  | zero =>
    intro s s' effs r h
    simp [trainLoop] at h
  | succ f ih =>
    intro s s' effs r h
    cases he : afterRunStep env s with
    | mk s1 rest =>
      cases rest with
      | mk effs1 ro =>
        have hnc := afterRunStep_nonchief env s hc
        rw [he] at hnc
        cases ro with
        | none =>
          rw [trainLoop_succ_of_none env s s1 f effs1 he] at h
          exact ih s1 s' effs r h
        | some r1 =>
          rw [trainLoop_succ_of_some env s s1 f effs1 r1 he] at h
          have h1 : s1 = s' ∧ effs1 = effs ∧ r1 = r := by
            simpa using h
          rcases hnc with ⟨he1, he2 | he2⟩
          · simp at he2
          · simp at he1 he2
            exact ⟨h1.2.1 ▸ he1, h1.2.2 ▸ he2⟩

/-- On a non-chief rank `compute_validation_metrics` returns the empty dict
(aggregation never crashes there: the rank only participates in the gather). -/
theorem compute_validation_metrics_nonchief (size : Nat) (all : List Metrics) (sz : ℚ)
    (em : Metrics) :
    compute_validation_metrics false size all sz em = some (.empty, []) := by
  by_cases h : 1 < size <;> simp [compute_validation_metrics, average_metrics, h]

/-- On the chief, a successful `compute_validation_metrics` always returns a
dict carrying the "validation_metrics" key. -/
theorem compute_validation_metrics_chief_shape (size : Nat) (all : List Metrics) (sz : ℚ)
    (em : Metrics) (inner : ValResp) (warns : List String)
    (h : compute_validation_metrics true size all sz em = some (inner, warns)) :
    ∃ m, inner = ValResp.withMetrics m := by
  by_cases h1 : 1 < size
  · simp only [compute_validation_metrics, h1, if_true, average_metrics] at h
    cases hm : averageMetricsLoop all sz em with
    | none => rw [hm] at h; simp at h
    | some p =>
      cases p with
      | mk ms ws =>
        rw [hm] at h
        simp at h
        exact ⟨some ms, h.1.symm⟩
  · simp only [compute_validation_metrics, h1, if_false] at h
    simp at h
    exact ⟨some em, h.1.symm⟩

/-- Every known workload whose handling cannot crash is acknowledged: the
handler returns `ok` with the response produced at the site `sourceOf` says. -/
theorem handleWorkload_ok (env : Env) (idx : Nat) (s : SimState) (w : Workload)
    (hk : w.known = true)
    (hval : w = .computeValidationMetrics →
      env.invalidHP idx = true
        ∨ (compute_validation_metrics env.isChief env.distributedSize (env.gatherAll idx)
            (env.distributedSize : ℚ) (env.evalMetrics idx)).isSome = true) :
    ∃ s' effs r, handleWorkload env idx s w = .ok s' effs (sourceOf w) r := by
  cases w with
  | runStep n =>
    obtain ⟨s', effs, r, hr⟩ := trainLoop_total env
      { hook := { s.hook with numBatches := some n, trainResponsePending := true },
        globalBatch := s.globalBatch } n rfl
    have heq : handleWorkload env idx s (.runStep n) = .ok s' effs .fromAfterRun r := by
      simp [handleWorkload, hr]
    exact ⟨s', effs, r, heq⟩
  | computeValidationMetrics =>
    by_cases hinv : env.invalidHP idx = true
    · have heq : handleWorkload env idx s .computeValidationMetrics =
          .ok { hook := (_save_model s.hook).1, globalBatch := s.globalBatch }
            (_save_model s.hook).2.toList .fromControlLoop .invalidHP := by
        simp [handleWorkload, hinv]
      exact ⟨_, _, _, heq⟩
    · have hsome : (compute_validation_metrics env.isChief env.distributedSize
          (env.gatherAll idx) (env.distributedSize : ℚ) (env.evalMetrics idx)).isSome = true := by
        rcases hval rfl with h | h
        · exact absurd h hinv
        · exact h
      rw [Option.isSome_iff_exists] at hsome
      obtain ⟨⟨inner, warns⟩, hcv⟩ := hsome
      cases hchief : env.isChief with
      | false =>
        rw [hchief] at hcv
        have heq : handleWorkload env idx s .computeValidationMetrics =
            .ok { hook := (_save_model s.hook).1, globalBatch := s.globalBatch }
              (_save_model s.hook).2.toList .fromControlLoop
              (.validation inner env.stopRequested) := by
          simp [handleWorkload, hinv, hchief, hcv]
        exact ⟨_, _, _, heq⟩
      | true =>
        rw [hchief] at hcv
        obtain ⟨m, hm⟩ := compute_validation_metrics_chief_shape _ _ _ _ _ _ hcv
        subst hm
        have heq : handleWorkload env idx s .computeValidationMetrics =
            .ok { hook := (_save_model s.hook).1, globalBatch := s.globalBatch }
              ((_save_model s.hook).2.toList
                ++ [.writeValidationMetrics ((_save_model s.hook).1).stepsCompleted m])
              .fromControlLoop (.validation (.withMetrics m) env.stopRequested) := by
          simp [handleWorkload, hinv, hchief, hcv]
        exact ⟨_, _, _, heq⟩
  | checkpointModel =>
    cases hchief : env.isChief with
    | false =>
      have heq : handleWorkload env idx s .checkpointModel =
          .ok { hook := (_save_model s.hook).1, globalBatch := s.globalBatch }
            (_save_model s.hook).2.toList .fromControlLoop .emptyDict := by
        simp [handleWorkload, hchief]
      exact ⟨_, _, _, heq⟩
    | true =>
      by_cases hinv : env.invalidHP idx = true
      · have heq : handleWorkload env idx s .checkpointModel =
            .ok { hook := (_save_model s.hook).1, globalBatch := s.globalBatch }
              (_save_model s.hook).2.toList .fromControlLoop .invalidHP := by
          simp [handleWorkload, hchief, hinv]
        exact ⟨_, _, _, heq⟩
      · have heq : handleWorkload env idx s .checkpointModel =
            .ok { hook := (_save_model s.hook).1, globalBatch := s.globalBatch }
              ((_save_model s.hook).2.toList ++ [.storePath (env.checkpointUuid idx)])
              .fromControlLoop (.checkpointUuid (env.checkpointUuid idx)) := by
          simp [handleWorkload, hchief, hinv]
        exact ⟨_, _, _, heq⟩
  | other => simp [Workload.known] at hk

/-- Index bookkeeping for the acknowledgement order. -/
theorem range_map_add (idx n : Nat) :
    (List.range (n + 1)).map (fun j => idx + j)
      = idx :: (List.range n).map (fun j => idx + 1 + j) := by
  rw [List.range_succ_eq_map, List.map_cons, List.map_map]
  have hfun : ((fun j => idx + j) ∘ Nat.succ) = fun j => idx + 1 + j := by
    funext j
    simp only [Function.comp]
    omega
  rw [hfun]
  simp

/-- The control loop, from any hook state and any starting index, emits one
acknowledgement per workload, indexed in delivery order and produced at the
site the workload kind dictates, then terminates gracefully. -/
theorem control_loop_spec (env : Env) :
    ∀ (ws : List Workload) (idx : Nat) (s : SimState),
      (∀ w ∈ ws, w.known = true) →
      envOkB env idx ws = true →
      (control_loop env idx s ws).emits.map Prod.fst = (List.range ws.length).map (fun j => idx + j)
      ∧ (control_loop env idx s ws).emits.map (fun e => e.2.1) = ws.map sourceOf
      ∧ (control_loop env idx s ws).outcome = .graceful := by
  intro ws
  induction ws with
  | nil =>
    intro idx s _ _
    exact ⟨by simp [control_loop], by simp [control_loop], rfl⟩
  | cons w rest ih =>
    intro idx s hknown hok
    have hkw : w.known = true := hknown w (by simp)
    have hkrest : ∀ w' ∈ rest, w'.known = true := fun w' hw' => hknown w' (by simp [hw'])
    have hok' : envOkB env (idx + 1) rest = true := by
      simp only [envOkB, Bool.and_eq_true] at hok
      exact hok.2
    have hval : w = .computeValidationMetrics →
        env.invalidHP idx = true
          ∨ (compute_validation_metrics env.isChief env.distributedSize (env.gatherAll idx)
              (env.distributedSize : ℚ) (env.evalMetrics idx)).isSome = true := by
      intro hw
      subst hw
      simp only [envOkB, Bool.and_eq_true, Bool.or_eq_true] at hok
      exact hok.1
    obtain ⟨s', effs, r, hw⟩ := handleWorkload_ok env idx s w hkw hval
    have hrec := ih (idx + 1) s' hkrest hok'
    refine ⟨?_, ?_, ?_⟩
    · simp only [control_loop, hw, List.map_cons, List.length_cons]
      rw [range_map_add]
      simp [hrec.1]
    · simp only [control_loop, hw, List.map_cons]
      simp [hrec.2.1]
    · simp only [control_loop, hw]
      exact hrec.2.2

/-- C1: for every finite workload sequence whose kinds are known and whose
validations aggregate without crashing, the estimator control loop invokes
the response function exactly once per workload, in delivery order (RUN_STEP
responses from `after_run`, validation and checkpoint responses from
`control_loop`), and after the last acknowledgement it raises
`WorkerFinishedGracefully` exactly once. -/
theorem C1_one_ack_per_workload_then_graceful (env : Env) (ws : List Workload)
    (steps0 : Nat)
    (hknown : ∀ w ∈ ws, w.known = true)
    (hok : envOkB env 0 ws = true) :
    (control_loop env 0 (initSimState steps0) ws).emits.map Prod.fst = List.range ws.length
    ∧ (control_loop env 0 (initSimState steps0) ws).emits.map (fun e => e.2.1)
        = ws.map sourceOf
    ∧ (control_loop env 0 (initSimState steps0) ws).outcome = .graceful := by
  have h := control_loop_spec env ws 0 (initSimState steps0) hknown hok
  refine ⟨?_, h.2.1, h.2.2⟩
  rw [h.1]
  simp

/-- The function `_save_model` performs no reporting side effect (its save is the local
TensorFlow checkpoint every rank writes). -/
theorem save_model_effects_not_reporting (hook : HookState) :
    ∀ e ∈ (_save_model hook).2.toList, e.isReporting = false := by
  intro e he
  cases hcg : hook.currentGlobalStep with
  | none => simp [_save_model, hcg] at he
  | some gs =>
    by_cases hl : hook.globalStepOfLastCheckpoint = some gs
    · simp [_save_model, hcg, hl] at he
    · simp [_save_model, hcg, hl] at he
      simp [he, Effect.isReporting]

/-- On a non-chief rank, a handled workload performs no reporting side effect
and answers with the empty dict, the validation wrapper around the empty
dict, or the InvalidHP marker. -/
theorem handleWorkload_nonchief (env : Env) (hc : env.isChief = false) (idx : Nat)
    (s : SimState) (w : Workload) :
    (∀ s' effs src r, handleWorkload env idx s w = .ok s' effs src r →
      (∀ e ∈ effs, e.isReporting = false)
      ∧ (r = Response.emptyDict
          ∨ r = Response.validation ValResp.empty env.stopRequested
          ∨ r = Response.invalidHP))
    ∧ (∀ effs out, handleWorkload env idx s w = .fail effs out →
        ∀ e ∈ effs, e.isReporting = false) := by
  cases w with
  | runStep n =>
    constructor
    · intro s' effs src r hok
      simp only [handleWorkload] at hok
      cases htl : trainLoop env
          { hook := { s.hook with numBatches := some n, trainResponsePending := true },
            globalBatch := s.globalBatch } (n + 1) with
      | none => rw [htl] at hok; simp at hok
      | some res =>
        obtain ⟨s2, effs2, r2⟩ := res
        rw [htl] at hok
        simp only [StepResult.ok.injEq] at hok
        obtain ⟨-, he, -, hr⟩ := hok
        obtain ⟨heffs, hresp⟩ := trainLoop_nonchief env hc (n + 1) _ s2 effs2 r2 htl
        subst he hr
        exact ⟨by simp [heffs], Or.inl hresp⟩
    · intro effs out hfail
      simp only [handleWorkload] at hfail
      cases htl : trainLoop env
          { hook := { s.hook with numBatches := some n, trainResponsePending := true },
            globalBatch := s.globalBatch } (n + 1) with
      | none =>
        rw [htl] at hfail
        simp only [StepResult.fail.injEq] at hfail
        obtain ⟨he, -⟩ := hfail
        subst he
        simp
      | some res =>
        obtain ⟨s2, effs2, r2⟩ := res
        rw [htl] at hfail
        simp at hfail
  | computeValidationMetrics =>
    constructor
    · intro s' effs src r hok
      by_cases hinv : env.invalidHP idx = true
      · have heq : handleWorkload env idx s .computeValidationMetrics =
            .ok { hook := (_save_model s.hook).1, globalBatch := s.globalBatch }
              (_save_model s.hook).2.toList .fromControlLoop .invalidHP := by
          simp [handleWorkload, hinv]
        rw [heq] at hok
        simp only [StepResult.ok.injEq] at hok
        obtain ⟨-, he, -, hr⟩ := hok
        subst he
        exact ⟨save_model_effects_not_reporting s.hook, Or.inr (Or.inr hr.symm)⟩
      · have heq : handleWorkload env idx s .computeValidationMetrics =
            .ok { hook := (_save_model s.hook).1, globalBatch := s.globalBatch }
              (_save_model s.hook).2.toList .fromControlLoop
              (.validation .empty env.stopRequested) := by
          simp [handleWorkload, hinv, hc,
            compute_validation_metrics_nonchief env.distributedSize (env.gatherAll idx)
              (env.distributedSize : ℚ) (env.evalMetrics idx)]
        rw [heq] at hok
        simp only [StepResult.ok.injEq] at hok
        obtain ⟨-, he, -, hr⟩ := hok
        subst he
        exact ⟨save_model_effects_not_reporting s.hook, Or.inr (Or.inl hr.symm)⟩
    · intro effs out hfail
      by_cases hinv : env.invalidHP idx = true
      · simp [handleWorkload, hinv] at hfail
      · simp [handleWorkload, hinv, hc,
          compute_validation_metrics_nonchief env.distributedSize (env.gatherAll idx)
            (env.distributedSize : ℚ) (env.evalMetrics idx)] at hfail
  | checkpointModel =>
    constructor
    · intro s' effs src r hok
      have heq : handleWorkload env idx s .checkpointModel =
          .ok { hook := (_save_model s.hook).1, globalBatch := s.globalBatch }
            (_save_model s.hook).2.toList .fromControlLoop .emptyDict := by
        simp [handleWorkload, hc]
      rw [heq] at hok
      simp only [StepResult.ok.injEq] at hok
      obtain ⟨-, he, -, hr⟩ := hok
      subst he
      exact ⟨save_model_effects_not_reporting s.hook, Or.inl hr.symm⟩
    · intro effs out hfail
      simp [handleWorkload, hc] at hfail
  | other =>
    constructor
    · intro s' effs src r hok
      simp [handleWorkload] at hok
    · intro effs out hfail
      simp only [handleWorkload, StepResult.fail.injEq] at hfail
      obtain ⟨he, -⟩ := hfail
      subst he
      simp

/-- On a non-chief rank, a whole run performs no reporting side effect and
every acknowledgement is the empty dict, the validation wrapper around the
empty dict, or the InvalidHP marker. -/
theorem control_loop_nonchief (env : Env) (hc : env.isChief = false) :
    ∀ (ws : List Workload) (idx : Nat) (s : SimState),
      (∀ e ∈ (control_loop env idx s ws).effects, e.isReporting = false)
      ∧ (∀ p ∈ (control_loop env idx s ws).emits,
          p.2.2 = Response.emptyDict
          ∨ p.2.2 = Response.validation ValResp.empty env.stopRequested
          ∨ p.2.2 = Response.invalidHP) := by
  intro ws
  induction ws with
  | nil =>
    intro idx s
    constructor <;> simp [control_loop]
  | cons w rest ih =>
    intro idx s
    have hw := handleWorkload_nonchief env hc idx s w
    cases hres : handleWorkload env idx s w with
    | ok s' effs src r =>
      obtain ⟨heffs, hr⟩ := hw.1 s' effs src r hres
      have hrec := ih (idx + 1) s'
      constructor
      · intro e he
        simp only [control_loop, hres, List.mem_append] at he
        rcases he with he | he
        · exact heffs e he
        · exact hrec.1 e he
      · intro p hp
        simp only [control_loop, hres, List.mem_cons] at hp
        rcases hp with hp | hp
        · subst hp
          exact hr
        · exact hrec.2 p hp
    | fail effs out =>
      have heffs := hw.2 effs out hres
      constructor
      · intro e he
        simp only [control_loop, hres] at he
        exact heffs e he
      · intro p hp
        simp only [control_loop, hres] at hp
        simp at hp

/-- When every gathered dict holds the numeric value `vs[i]` at key `k`, the
summing loop of `average_metrics` computes `vs.sum`. -/
theorem sumMetricKey_of_values (k : String) :
    ∀ (all : List Metrics) (vs : List ℚ),
      all.map (fun m => m.lookup k) = vs.map (fun v => some (MetricValue.num v)) →
      sumMetricKey all k = some vs.sum := by
  intro all
  induction all with
  | nil =>
    intro vs h
    have hvs : vs = [] := by
      cases vs with
      | nil => rfl
      | cons v vt => simp at h
    subst hvs
    simp [sumMetricKey]
  | cons m rest ih =>
    intro vs h
    cases vs with
    | nil => simp at h
    | cons v vt =>
      simp only [List.map_cons, List.cons.injEq] at h
      obtain ⟨h1, h2⟩ := h
      simp only [sumMetricKey, h1, ih vt h2]
      simp

/-- In the chief's averaging loop, a numeric entry of rank 0's metrics ends up
holding the gathered sum divided by `hvd.size()`. -/
theorem averageMetricsLoop_lookup_num :
    ∀ (metrics : Metrics) (all : List Metrics) (sz : ℚ) (ms : Metrics)
      (warns : List String) (k : String) (q : ℚ),
      averageMetricsLoop all sz metrics = some (ms, warns) →
      metrics.lookup k = some (.num q) →
      ∃ S, sumMetricKey all k = some S ∧ ms.lookup k = some (.num (S / sz)) := by
  intro metrics
  induction metrics with
  | nil =>
    intro all sz ms warns k q _ hl
    simp [List.lookup] at hl
  | cons kv rest ih =>
    obtain ⟨k', v'⟩ := kv
    intro all sz ms warns k q h hl
    cases v' with
    | num q' =>
      simp only [averageMetricsLoop] at h
      cases hs : sumMetricKey all k' with
      | none => rw [hs] at h; simp at h
      | some S' =>
        rw [hs] at h
        cases hr : averageMetricsLoop all sz rest with
        | none => rw [hr] at h; simp at h
        | some p =>
          obtain ⟨ms', ws'⟩ := p
          rw [hr] at h
          simp only [Option.some.injEq, Prod.mk.injEq] at h
          obtain ⟨hms, hws⟩ := h
          by_cases hk : k = k'
          · subst hk
            rw [← hms]
            refine ⟨S', hs, ?_⟩
            simp [List.lookup]
          · have hbf : (k == k') = false := by simp [hk]
            simp only [List.lookup, hbf] at hl
            obtain ⟨S, hS, hSl⟩ := ih all sz ms' ws' k q hr hl
            refine ⟨S, hS, ?_⟩
            rw [← hms]
            simp only [List.lookup, hbf]
            exact hSl
    | str sv =>
      simp only [averageMetricsLoop] at h
      cases hr : averageMetricsLoop all sz rest with
      | none => rw [hr] at h; simp at h
      | some p =>
        obtain ⟨ms', ws'⟩ := p
        rw [hr] at h
        simp only [Option.some.injEq, Prod.mk.injEq] at h
        obtain ⟨hms, hws⟩ := h
        by_cases hk : k = k'
        · subst hk
          simp [List.lookup] at hl
        · have hbf : (k == k') = false := by simp [hk]
          simp only [List.lookup, hbf] at hl
          obtain ⟨S, hS, hSl⟩ := ih all sz ms' ws' k q hr hl
          refine ⟨S, hS, ?_⟩
          rw [← hms]
          simp only [List.lookup, hbf]
          exact hSl

/-- In the chief's averaging loop, a non-numeric entry of rank 0's metrics is
kept unchanged and its key is warned about. -/
theorem averageMetricsLoop_lookup_nonnum :
    ∀ (metrics : Metrics) (all : List Metrics) (sz : ℚ) (ms : Metrics)
      (warns : List String) (k : String) (v : MetricValue),
      averageMetricsLoop all sz metrics = some (ms, warns) →
      metrics.lookup k = some v →
      (∀ q : ℚ, v ≠ .num q) →
      ms.lookup k = some v ∧ k ∈ warns := by
  intro metrics
  induction metrics with
  | nil =>
    intro all sz ms warns k v _ hl
    simp [List.lookup] at hl
  | cons kv rest ih =>
    obtain ⟨k', v'⟩ := kv
    intro all sz ms warns k v h hl hv
    cases v' with
    | num q' =>
      simp only [averageMetricsLoop] at h
      cases hs : sumMetricKey all k' with
      | none => rw [hs] at h; simp at h
      | some S' =>
        rw [hs] at h
        cases hr : averageMetricsLoop all sz rest with
        | none => rw [hr] at h; simp at h
        | some p =>
          obtain ⟨ms', ws'⟩ := p
          rw [hr] at h
          simp only [Option.some.injEq, Prod.mk.injEq] at h
          obtain ⟨hms, hws⟩ := h
          by_cases hk : k = k'
          · subst hk
            simp [List.lookup] at hl
            exact absurd hl.symm (hv q')
          · have hbf : (k == k') = false := by simp [hk]
            simp only [List.lookup, hbf] at hl
            obtain ⟨hSl, hmem⟩ := ih all sz ms' ws' k v hr hl hv
            constructor
            · rw [← hms]
              simp only [List.lookup, hbf]
              exact hSl
            · rw [← hws]
              exact hmem
    | str sv =>
      simp only [averageMetricsLoop] at h
      cases hr : averageMetricsLoop all sz rest with
      | none => rw [hr] at h; simp at h
      | some p =>
        obtain ⟨ms', ws'⟩ := p
        rw [hr] at h
        simp only [Option.some.injEq, Prod.mk.injEq] at h
        obtain ⟨hms, hws⟩ := h
        by_cases hk : k = k'
        · subst hk
          simp [List.lookup] at hl
          constructor
          · rw [← hms]
            simp [List.lookup, hl]
          · rw [← hws]
            simp
        · have hbf : (k == k') = false := by simp [hk]
          simp only [List.lookup, hbf] at hl
          obtain ⟨hSl, hmem⟩ := ih all sz ms' ws' k v hr hl hv
          constructor
          · rw [← hms]
            simp only [List.lookup, hbf]
            exact hSl
          · rw [← hws]
            simp [hmem]

/-- A successful chief `average_metrics` comes from a successful loop run. -/
theorem average_metrics_chief_inv (all : List Metrics) (sz : ℚ) (metrics ms : Metrics)
    (warns : List String)
    (h : average_metrics true all sz metrics = some (some ms, warns)) :
    averageMetricsLoop all sz metrics = some (ms, warns) := by
  simp only [average_metrics, if_true] at h
  cases hal : averageMetricsLoop all sz metrics with
  | none => rw [hal] at h; simp at h
  | some p =>
    obtain ⟨ms', ws'⟩ := p
    rw [hal] at h
    simp only [Option.some.injEq, Prod.mk.injEq] at h
    rw [h.1, h.2]

/-! ## Claims -/

/-- C8: a workload whose kind is none of RUN_STEP, COMPUTE_VALIDATION_METRICS
or CHECKPOINT_MODEL makes the control loop raise an AssertionError: no
response is sent for it, no effect is performed, and the InvalidHP handler
does not catch it (the outcome is the assertion failure, not an InvalidHP
response). -/
theorem C8_unknown_workload_kind_asserts (env : Env) (idx : Nat) (s : SimState)
    (ws : List Workload) :
    control_loop env idx s (Workload.other :: ws) =
      { emits := [], effects := [], outcome := .assertionError } := by
  simp [control_loop, handleWorkload]

/-- C9: `_save_model` is idempotent with respect to training progress: before
any training batch (`_current_global_step is None`) nothing is saved; a second
consecutive `_save_model` with no intervening batch never saves; and a save
happens exactly when training has started and the global step moved since the
last saved checkpoint. -/
theorem C9_save_model_idempotent (hook : HookState) :
    (_save_model { hook with currentGlobalStep := none }).2 = none
    ∧ (_save_model (_save_model hook).1).2 = none
    ∧ ((_save_model hook).2 ≠ none ↔
        hook.currentGlobalStep ≠ none
        ∧ hook.globalStepOfLastCheckpoint ≠ hook.currentGlobalStep) := by
  refine ⟨rfl, ?_, ?_⟩
  · cases hcg : hook.currentGlobalStep with
    | none => simp [_save_model, hcg]
    | some gs =>
      by_cases hl : hook.globalStepOfLastCheckpoint = some gs
      · simp [_save_model, hcg, hl]
      · simp [_save_model, hcg, hl]
  · cases hcg : hook.currentGlobalStep with
    | none => simp [_save_model, hcg]
    | some gs =>
      by_cases hl : hook.globalStepOfLastCheckpoint = some gs
      · simp [_save_model, hcg, hl]
      · simp [_save_model, hcg, hl]

/-- C10: in `Trainer.fit`, the effective values of
`average_aggregated_gradients` and `average_training_metrics` (and, in local
training mode, `smaller_is_better`) are computed as `argument or True`, so
they are `True` for every argument — passing `False` is silently ignored. -/
theorem C10_fit_options_cannot_be_disabled (localTraining configSIB : Bool) (args : FitArgs) :
    (Trainer_fit_settings localTraining configSIB args).averageAggregatedGradients = true
    ∧ (Trainer_fit_settings localTraining configSIB args).averageTrainingMetrics = true
    ∧ (Trainer_fit_settings true configSIB args).smallerIsBetter = true := by
  refine ⟨?_, ?_, ?_⟩ <;>
    simp [Trainer_fit_settings, pyOrBool_true_right]

/-- C4: an exhausted workload sequence makes the control loop raise the
distinguished `WorkerFinishedGracefully` signal (and nothing else), and
`EstimatorTrialController.run` treats exactly that signal as success: it is
caught and `run` returns normally, while a training loop that exits without
raising produces an AssertionError; the graceful signal is never an error. -/
theorem C4_graceful_completion_is_success (env : Env) (idx : Nat) (s : SimState) :
    control_loop env idx s [] = { emits := [], effects := [], outcome := .graceful }
    ∧ run .raisedGraceful = .returnedNormally
    ∧ run .returnedNormally = .raisedAssertionError
    ∧ (∀ t, run t = .returnedNormally ↔ t = .raisedGraceful)
    ∧ (∀ emits effects,
        run (trainAndEvaluateResult { emits := emits, effects := effects, outcome := .graceful })
          = .returnedNormally) := by
  refine ⟨rfl, rfl, rfl, ?_, fun _ _ => rfl⟩
  intro t
  cases t <;> simp [run]

/-- C7: WorkloadSequencer state survives the checkpoint round trip:
`_checkpoint_model` pickles `wlsq.get_state()` into "workload_sequencer.pkl"
in the staging directory, and `_init_paths` unpickles that file and feeds it
to `wlsq.load_state`, so the recovered position equals the position at
checkpoint time, whatever the sequencer held before the restore. -/
theorem C7_wlsq_state_roundtrip (st cur : WlsqState) :
    (_checkpoint_model (some st)).lookup "workload_sequencer.pkl"
      = some (FileContent.pklWlsqState st)
    ∧ _init_paths_load_wlsq (some cur) (_checkpoint_model (some st)) = some st := by
  constructor <;> rfl

/-- C5: a `det.InvalidHP` raised by user code while the control loop handles a
validation or checkpoint workload is caught at the control-loop boundary and
turned into the structured InvalidHP response delivered through the workload's
`response_func`; the loop then proceeds with the remaining workloads instead
of crashing.  An InvalidHP reaching `core.Context.__exit__` (Trial init) is
converted into an early-exit report followed by `exit(0)`, which no other
exception triggers. -/
theorem C5_invalidhp_is_recoverable :
    (∀ (env : Env) (idx : Nat) (s : SimState),
      env.invalidHP idx = true →
      handleWorkload env idx s .computeValidationMetrics =
        .ok { hook := (_save_model s.hook).1, globalBatch := s.globalBatch }
          (_save_model s.hook).2.toList .fromControlLoop .invalidHP)
    ∧ (∀ (env : Env) (idx : Nat) (s : SimState),
      env.invalidHP idx = true → env.isChief = true →
      handleWorkload env idx s .checkpointModel =
        .ok { hook := (_save_model s.hook).1, globalBatch := s.globalBatch }
          (_save_model s.hook).2.toList .fromControlLoop .invalidHP)
    ∧ (∀ (env : Env) (idx : Nat) (s s' : SimState) (w : Workload) (ws : List Workload)
        (effs : List Effect) (src : Source),
      handleWorkload env idx s w = .ok s' effs src .invalidHP →
      control_loop env idx s (w :: ws) =
        { emits := (idx, src, Response.invalidHP) :: (control_loop env (idx + 1) s' ws).emits,
          effects := effs ++ (control_loop env (idx + 1) s' ws).effects,
          outcome := (control_loop env (idx + 1) s' ws).outcome })
    ∧ Context_exit (some .invalidHP) =
        { preemptClosed := true, distributedClosed := true,
          reportedEarlyExitInvalidHP := true, exitedZero := true }
    ∧ (∀ name, (Context_exit (some (.other name))).exitedZero = false
        ∧ (Context_exit none).exitedZero = false) := by
  refine ⟨?_, ?_, ?_, rfl, ?_⟩
  · intro env idx s hinv
    simp [handleWorkload, hinv]
  · intro env idx s hinv hchief
    simp [handleWorkload, hinv, hchief]
  · intro env idx s s' w ws effs src hok
    simp [control_loop, hok]
  · intro name
    constructor <;> simp [Context_exit]

/-- C2, counterexample: the claim "every non-chief rank responds with an
empty dict" is false for a COMPUTE_VALIDATION_METRICS workload: a non-chief
rank answers with the dict holding the "metrics" and "stop_requested" keys
(whose metrics payload is the empty dict), not with the empty dict. -/
theorem C2_counterexample_nonchief_validation_response :
    (control_loop envNonChief 0 (initSimState 0)
        [Workload.computeValidationMetrics]).emits
      = [(0, Source.fromControlLoop, Response.validation ValResp.empty false)]
    ∧ Response.validation ValResp.empty false ≠ Response.emptyDict := by
  constructor
  · decide
  · decide

/-- C2 (amended): only the chief performs reporting side effects.  On
non-chief ranks no train-metric write, validation-metric write or
`store_path` ever happens, and the responses are the empty dict for RUN_STEP
and CHECKPOINT_MODEL, the metrics/stop-requested dict with an empty metrics
payload for COMPUTE_VALIDATION_METRICS, or the InvalidHP marker.  On the
chief, the RUN_STEP response carries the step metrics and the stop-requested
flag and the train metrics are written; a successful validation persists the
"validation_metrics" payload; a checkpoint calls `store_path` and answers
with the storage id. -/
theorem C2_chief_only_reporting_amended :
    (∀ (env : Env) (idx : Nat) (s : SimState) (ws : List Workload),
      env.isChief = false →
      (∀ e ∈ (control_loop env idx s ws).effects, e.isReporting = false)
      ∧ (∀ p ∈ (control_loop env idx s ws).emits,
          p.2.2 = Response.emptyDict
          ∨ p.2.2 = Response.validation ValResp.empty env.stopRequested
          ∨ p.2.2 = Response.invalidHP))
    ∧ (∀ (env : Env) (s : SimState) (n : Nat),
      env.isChief = true → s.hook.numBatches = some n →
      n ≤ s.hook.batchesProcessedInStep + 1 →
      (afterRunStep env s).2.2 =
        some (Response.trainStep (s.hook.batchesProcessedInStep + 1)
          ((s.hook.stepMetrics ++ [env.batchMetrics s.globalBatch]).map fixLossMetrics)
          env.stopRequested)
      ∧ (afterRunStep env s).2.1 = [Effect.writeTrainMetrics (s.hook.stepsCompleted + 1)])
    ∧ (∀ (env : Env) (idx : Nat) (s : SimState) (m : Option Metrics) (warns : List String),
      env.isChief = true → env.invalidHP idx = false →
      compute_validation_metrics true env.distributedSize (env.gatherAll idx)
          (env.distributedSize : ℚ) (env.evalMetrics idx) = some (.withMetrics m, warns) →
      handleWorkload env idx s .computeValidationMetrics =
        .ok { hook := (_save_model s.hook).1, globalBatch := s.globalBatch }
          ((_save_model s.hook).2.toList
            ++ [.writeValidationMetrics ((_save_model s.hook).1).stepsCompleted m])
          .fromControlLoop (.validation (.withMetrics m) env.stopRequested))
    ∧ (∀ (env : Env) (idx : Nat) (s : SimState),
      env.isChief = true → env.invalidHP idx = false →
      handleWorkload env idx s .checkpointModel =
        .ok { hook := (_save_model s.hook).1, globalBatch := s.globalBatch }
          ((_save_model s.hook).2.toList ++ [Effect.storePath (env.checkpointUuid idx)])
          .fromControlLoop (.checkpointUuid (env.checkpointUuid idx))) := by
  refine ⟨?_, ?_, ?_, ?_⟩
  · intro env idx s ws hc
    exact control_loop_nonchief env hc ws idx s
  · intro env s n hchief hn hge
    rw [afterRunStep_fire env s n hn hge]
    constructor <;> simp [hchief]
  · intro env idx s m warns hchief hinv hcv
    simp only [handleWorkload, hinv, Bool.false_eq_true, if_false, hchief, hcv, if_true]
  · intro env idx s hchief hinv
    simp [handleWorkload, hchief, hinv]

/-- C2 witness: a non-chief run of a train step and a checkpoint performs no
reporting effect, and a chief checkpoint stores the checkpoint and answers
with its storage id. -/
theorem C2_witness :
    (∀ e ∈ (control_loop envNonChief 0 (initSimState 0)
        [Workload.runStep 1, Workload.checkpointModel]).effects, e.isReporting = false)
    ∧ handleWorkload envChief 0 (initSimState 0) .checkpointModel =
        .ok { hook := (_save_model (initSimState 0).hook).1, globalBatch := 0 }
          ((_save_model (initSimState 0).hook).2.toList ++ [Effect.storePath "uuid-1"])
          .fromControlLoop (.checkpointUuid "uuid-1") := by
  constructor
  · exact (C2_chief_only_reporting_amended.1 envNonChief 0 (initSimState 0)
      [Workload.runStep 1, Workload.checkpointModel] rfl).1
  · exact C2_chief_only_reporting_amended.2.2.2 envChief 0 (initSimState 0) rfl rfl

/-- C3: distributed metric aggregation.  On the chief, a numeric metric whose
per-rank values are `vs` aggregates to `vs.sum / vs.length` (the gathered sum
divided by the world size); a non-numeric metric keeps rank 0's own value and
its key is warned about; non-chief ranks receive no aggregated value:
`average_metrics` returns `None` there and `compute_validation_metrics`
returns the empty dict. -/
theorem C3_metric_aggregation :
    (∀ (all : List Metrics) (metrics ms : Metrics) (warns : List String) (k : String)
        (q : ℚ) (vs : List ℚ),
      average_metrics true all (vs.length : ℚ) metrics = some (some ms, warns) →
      metrics.lookup k = some (.num q) →
      all.map (fun m => m.lookup k) = vs.map (fun v => some (MetricValue.num v)) →
      ms.lookup k = some (.num (vs.sum / (vs.length : ℚ))))
    ∧ (∀ (all : List Metrics) (sz : ℚ) (metrics ms : Metrics) (warns : List String)
        (k : String) (v : MetricValue),
      average_metrics true all sz metrics = some (some ms, warns) →
      metrics.lookup k = some v → (∀ q : ℚ, v ≠ .num q) →
      ms.lookup k = some v ∧ k ∈ warns)
    ∧ (∀ (all : List Metrics) (sz : ℚ) (metrics : Metrics),
      average_metrics false all sz metrics = some (none, []))
    ∧ (∀ (size : Nat) (all : List Metrics) (sz : ℚ) (em : Metrics),
      compute_validation_metrics false size all sz em = some (.empty, [])) := by
  refine ⟨?_, ?_, ?_, ?_⟩
  · intro all metrics ms warns k q vs h hlk hall
    have hloop := average_metrics_chief_inv all _ metrics ms warns h
    obtain ⟨S, hS, hSl⟩ := averageMetricsLoop_lookup_num metrics all _ ms warns k q hloop hlk
    rw [sumMetricKey_of_values k all vs hall] at hS
    injection hS with hS
    rw [hS]
    exact hSl
  · intro all sz metrics ms warns k v h hlk hv
    exact averageMetricsLoop_lookup_nonnum metrics all sz ms warns k v
      (average_metrics_chief_inv all sz metrics ms warns h) hlk hv
  · intro all sz metrics
    simp [average_metrics]
  · intro size all sz em
    exact compute_validation_metrics_nonchief size all sz em

/-- C3 witness: with gathered values 1 and 3 at key "a" over two ranks, the
chief's aggregate at "a" is (1+3)/2 = 2, the non-numeric "b" is kept as rank
0 produced it and warned about, and the non-chief rank gets nothing. -/
theorem C3_witness :
    ([("a", MetricValue.num 2), ("b", MetricValue.str "x")] : Metrics).lookup "a"
        = some (MetricValue.num (([1, 3] : List ℚ).sum / (([1, 3] : List ℚ).length : ℚ)))
    ∧ (([("a", MetricValue.num 2), ("b", MetricValue.str "x")] : Metrics).lookup "b"
          = some (MetricValue.str "x") ∧ "b" ∈ ["b"])
    ∧ average_metrics false allW 2 metricsW = some (none, []) := by
  refine ⟨?_, ?_, ?_⟩
  · exact C3_metric_aggregation.1 allW metricsW
      [("a", MetricValue.num 2), ("b", MetricValue.str "x")] ["b"] "a" 1 [1, 3]
      (by norm_num [average_metrics, averageMetricsLoop, sumMetricKey, allW, metricsW,
        List.lookup])
      (by decide) (by decide)
  · exact C3_metric_aggregation.2.1 allW 2 metricsW
      [("a", MetricValue.num 2), ("b", MetricValue.str "x")] ["b"] "b" (MetricValue.str "x")
      (by norm_num [average_metrics, averageMetricsLoop, sumMetricKey, allW, metricsW,
        List.lookup])
      (by decide) (fun q h => MetricValue.noConfusion h)
  · exact C3_metric_aggregation.2.2.1 allW 2 metricsW

/-- C6: a RUN_STEP of `n ≥ 1` batches hands control back to the training
loop and the step response fires only after exactly `n` batches: `after_run`
returns early while fewer than `n` batches have run, and on the `n`-th batch
it sends the response built from exactly the `n` collected per-batch metric
dicts, then resets the batch counter and the collected metrics. -/
theorem C6_run_step_response_after_exactly_n_batches (env : Env) (s : SimState) (n : Nat)
    (h1 : 1 ≤ n) (hn : s.hook.numBatches = some n)
    (hp : s.hook.batchesProcessedInStep = 0) (hm : s.hook.stepMetrics = []) :
    trainLoop env s (n + 1) =
      some
        ({ hook :=
            { s.hook with
                trainResponsePending := false
                batchesProcessedInStep := 0
                stepMetrics := []
                currentGlobalStep := some (s.globalBatch + n)
                stepsCompleted := s.hook.stepsCompleted + n },
           globalBatch := s.globalBatch + n },
         (if env.isChief then [Effect.writeTrainMetrics (s.hook.stepsCompleted + n)] else []),
         if env.isChief then
           Response.trainStep n
             (((List.range n).map fun j => env.batchMetrics (s.globalBatch + j)).map
               fixLossMetrics)
             env.stopRequested
         else Response.emptyDict)
    ∧ ((List.range n).map fun j => env.batchMetrics (s.globalBatch + j)).length = n
    ∧ (∀ s₁ : SimState, s₁.hook.numBatches = some n →
        s₁.hook.batchesProcessedInStep + 1 < n → (afterRunStep env s₁).2.2 = none) := by
  refine ⟨?_, by simp, ?_⟩
  · rw [trainLoop_run env (n + 1) s n hn (by omega) (by omega)]
    rw [hp, hm]
    simp
  · intro s₁ h₁ h₂
    rw [afterRunStep_continue env s₁ n h₁ h₂]

/-- C6 witness: a chief RUN_STEP of 2 batches runs exactly 2 batches and
answers with the 2 collected per-batch metric dicts. -/
theorem C6_witness :
    trainLoop envChief sW 3 =
      some
        ({ hook :=
            { sW.hook with
                trainResponsePending := false
                batchesProcessedInStep := 0
                stepMetrics := []
                currentGlobalStep := some 2
                stepsCompleted := 2 },
           globalBatch := 2 },
         [Effect.writeTrainMetrics 2],
         Response.trainStep 2
           [[("loss", MetricValue.num 0)], [("loss", MetricValue.num 1)]] false) := by
  have h := C6_run_step_response_after_exactly_n_batches envChief sW 2 (by omega) rfl rfl rfl
  rw [h.1]
  decide

/-- C1 witness: a non-chief run of one training step, a checkpoint and a
validation acknowledges all three workloads in order, the step from
`after_run` and the others from `control_loop`, then finishes gracefully. -/
theorem C1_witness :
    (control_loop envNonChief 0 (initSimState 0) wsW).emits.map Prod.fst
        = List.range wsW.length
    ∧ (control_loop envNonChief 0 (initSimState 0) wsW).emits.map (fun e => e.2.1)
        = wsW.map sourceOf
    ∧ (control_loop envNonChief 0 (initSimState 0) wsW).outcome = .graceful :=
  C1_one_ack_per_workload_then_graceful envNonChief wsW 0 (by decide) (by decide)

/-- C5 witness: with user code raising InvalidHP, validation and checkpoint
workloads are answered with the structured InvalidHP response, and the
`Context.__exit__` conversion exits 0. -/
theorem C5_witness :
    handleWorkload envInvalidHP 0 (initSimState 0) .computeValidationMetrics =
      .ok { hook := (_save_model (initSimState 0).hook).1, globalBatch := 0 }
        (_save_model (initSimState 0).hook).2.toList .fromControlLoop .invalidHP
    ∧ handleWorkload envInvalidHP 0 (initSimState 0) .checkpointModel =
      .ok { hook := (_save_model (initSimState 0).hook).1, globalBatch := 0 }
        (_save_model (initSimState 0).hook).2.toList .fromControlLoop .invalidHP
    ∧ (Context_exit (some .invalidHP)).exitedZero = true := by
  refine ⟨?_, ?_, ?_⟩
  · exact C5_invalidhp_is_recoverable.1 envInvalidHP 0 (initSimState 0) rfl
  · exact C5_invalidhp_is_recoverable.2.1 envInvalidHP 0 (initSimState 0) rfl rfl
  · rw [C5_invalidhp_is_recoverable.2.2.2.1]

end DeterminedEstimator
